import Mathlib

/-!
Shallow embedding of the collection engine of the `myaku` repository
(crate `src/lib`), covering:

* the execution-graph builder (`src/lib/src/graph.rs`):
  `add_task`, `build_collection_execution_graph` and the inline
  frequency-bucket predicate;
* the evaluator loop of `CollectionProcess::execute_collection`
  (`src/lib/src/lib.rs`, the per-commit-group closure);
* the collector helpers (`src/lib/src/collectors/utils.rs`):
  `find_incoming_edges`, `find_preceding_node`,
  `get_previous_commit_value_of_collector`, `get_value_of_preceeding_node`;
* the incremental branch and the full-walk branch of
  `PatternOccurences::collect` (`src/lib/src/collectors/pattern_occurences.rs`);
* `WorktreeHandle::list_files` (`src/lib/src/git.rs`) and the `FileList`
  collector.

Machine integers (`u32`, `usize`) are modelled by `Nat`: none of the modelled
code paths can overflow on the inputs considered, and none of the modelled
functions performs wrapping arithmetic.  `HashSet` values are modelled by
`Finset`; the `DashMap` storage is modelled by an association list whose
`insert` prepends, so that lookup sees the most recent write, matching
`DashMap::insert` overwrite semantics.
-/

namespace Myaku

/-! ### Calendar model

The graph builder compares `chrono::DateTime<Utc>` values through
`date_naive().year_ce()`, `.month0()`, `.iso_week()`, `.day0()` and `.hour()`.
We model a UTC instant by its civil (proleptic Gregorian, CE) fields; all
instants appearing in the repository data and tests are CE, and every
comparison the source performs factors through these fields.  Ordering of
instants is lexicographic on the fields, which agrees with the chronological
order `partial_cmp` uses. -/

structure DateTime where
  year : Nat
  month : Nat
  day : Nat
  hour : Nat
  minute : Nat
  second : Nat
deriving DecidableEq

/-- Lexicographic (chronological) order on civil datetimes, modelling
`DateTime<Utc>::partial_cmp`. -/
def DateTime.leb (a b : DateTime) : Bool :=
  if a.year ≠ b.year then decide (a.year < b.year)
  else if a.month ≠ b.month then decide (a.month < b.month)
  else if a.day ≠ b.day then decide (a.day < b.day)
  else if a.hour ≠ b.hour then decide (a.hour < b.hour)
  else if a.minute ≠ b.minute then decide (a.minute < b.minute)
  else decide (a.second ≤ b.second)

/-- Strict chronological order on civil datetimes. -/
def DateTime.ltb (a b : DateTime) : Bool :=
  a.leb b && !(decide (a = b))

/-- Gregorian leap-year rule, as used by `chrono`. -/
def isLeapYear (y : Nat) : Bool :=
  y % 4 == 0 && (y % 100 != 0 || y % 400 == 0)

/-- Days in the months strictly before month `m` (1-based) of year `y`. -/
def daysBeforeMonth (y m : Nat) : Nat :=
  let feb := if isLeapYear y then 29 else 28
  match m with
  | 1 => 0
  | 2 => 31
  | 3 => 31 + feb
  | 4 => 62 + feb
  | 5 => 92 + feb
  | 6 => 123 + feb
  | 7 => 153 + feb
  | 8 => 184 + feb
  | 9 => 215 + feb
  | 10 => 245 + feb
  | 11 => 276 + feb
  | 12 => 306 + feb
  | _ => 0

/-- Ordinal day of the year (1-based). -/
def dayOfYear (y m d : Nat) : Nat :=
  daysBeforeMonth y m + d

/-- Day-of-week formula of Sakamoto; `0` is Sunday. -/
def weekday0Sunday (y m d : Nat) : Nat :=
  let t : Nat := match m with
    | 1 => 0 | 2 => 3 | 3 => 2 | 4 => 5 | 5 => 0 | 6 => 3
    | 7 => 5 | 8 => 1 | 9 => 4 | 10 => 6 | 11 => 2 | 12 => 4
    | _ => 0
  let yy := if m < 3 then y - 1 else y
  ((yy + yy / 4 + yy / 400 + t + d) - yy / 100) % 7

/-- ISO weekday, `1` = Monday, ..., `7` = Sunday. -/
def isoWeekday (y m d : Nat) : Nat :=
  let w := weekday0Sunday y m d
  if w == 0 then 7 else w

/-- Number of ISO weeks in year `y` (52 or 53). -/
def isoWeeksInYear (y : Nat) : Nat :=
  let p : Nat → Nat := fun z => ((z + z / 4 + z / 400) - z / 100) % 7
  if p y == 4 || p (y - 1) == 3 then 53 else 52

/-- The ISO week of a civil date, as the pair (ISO year, week number);
models `chrono::NaiveDate::iso_week`, whose `IsoWeek` compares by both
fields. -/
def isoWeek (y m d : Nat) : Nat × Nat :=
  let doy := dayOfYear y m d
  let wd := isoWeekday y m d
  let w := (doy + 10 - wd) / 7
  if w == 0 then (y - 1, isoWeeksInYear (y - 1))
  else if w == 53 && isoWeeksInYear y == 52 then (y + 1, 1)
  else (y, w)

/-- Models `chrono::Datelike::year_ce`: a (is-CE, year) pair.  In this CE-only
model the year `0` stands for 1 BCE, as in the proleptic calendar of chrono. -/
def yearCE (y : Nat) : Bool × Nat :=
  if 0 < y then (true, y) else (false, 1 - y)

/-- Models `chrono::Datelike::month0` (0-based month). -/
def month0 (m : Nat) : Nat := m - 1

/-- Models `chrono::Datelike::day0` (0-based day of month). -/
def day0 (d : Nat) : Nat := d - 1

/-! ### Configuration types (`src/lib/src/config.rs`) -/

inductive Frequency where
  | perCommit
  | yearly
  | monthly
  | weekly
  | daily
  | hourly
deriving DecidableEq

/-- Mirrors `CollectorConfig` from `src/lib/src/config.rs`, together with the
`ChangedFilesLoc` and `GritQLPatternOccurences` variants that the collector
registry and `graph.rs` of the same crate refer to. -/
inductive CollectorConfig where
  | totalLoc
  | loc
  | totalDiffStat
  | totalCargoDeps
  | totalPatternOccurences (pattern : String)
  | patternOccurences (pattern : String)
  | changedFiles
  | fileList
  | totalFileCount
  | changedFilesLoc
  | gritqlPatternOccurences (pattern : String)
deriving DecidableEq

structure MetricConfig where
  collector : CollectorConfig
  frequency : Frequency
deriving DecidableEq

abbrev CommitHash := String

structure Author where
  name : Option String
  email : Option String
deriving DecidableEq

structure CommitInfo where
  id : CommitHash
  author : Author
  committer : Author
  message : Option String
  time : DateTime
deriving DecidableEq

/-! ### The frequency-bucket predicate

This is the `skipped` computation inlined in
`build_collection_execution_graph` (graph.rs lines 186-211), extracted for
the case where a previous commit exists.  Each `is_same_*` mirrors the
corresponding `let` binding. -/

def is_same_year (a b : DateTime) : Bool :=
  decide (yearCE a.year = yearCE b.year)

def is_same_month (a b : DateTime) : Bool :=
  is_same_year a b && decide (month0 a.month = month0 b.month)

def is_same_week (a b : DateTime) : Bool :=
  is_same_month a b && decide (isoWeek a.year a.month a.day = isoWeek b.year b.month b.day)

def is_same_day (a b : DateTime) : Bool :=
  is_same_week a b && decide (day0 a.day = day0 b.day)

def is_same_hour (a b : DateTime) : Bool :=
  is_same_day a b && decide (a.hour = b.hour)

/-- The bucket predicate selected by the frequency of the metric (the `match` on
`metric_config.frequency` in graph.rs). -/
def same_bucket (prev cur : DateTime) (f : Frequency) : Bool :=
  match f with
  | .perCommit => false
  | .yearly => is_same_year prev cur
  | .monthly => is_same_month prev cur
  | .weekly => is_same_week prev cur
  | .daily => is_same_day prev cur
  | .hourly => is_same_hour prev cur

/-! ### The execution graph (`src/lib/src/graph.rs`)

`petgraph::Graph` is modelled by parallel lists of node weights and edges;
a node index is the position of the node in the insertion order, exactly as in
petgraph.  The `created_tasks` HashMap is modelled by an association list
whose keys are unique (insertion happens only after a failed lookup). -/

structure CollectionTask where
  commit_hash : CommitHash
  collector_config : CollectorConfig
deriving DecidableEq

/-- The edge weight: the doc comment in the source reads "The number of commits
between the two nodes". -/
structure CollectionGraphEdge where
  distance : Nat
deriving DecidableEq

/-- One petgraph edge: endpoints plus weight. -/
structure PEdge where
  source : Nat
  target : Nat
  weight : CollectionGraphEdge
deriving DecidableEq

structure CollectionExecutionGraph where
  nodes : List CollectionTask
  edges : List PEdge
deriving DecidableEq

def CollectionExecutionGraph.empty : CollectionExecutionGraph := ⟨[], []⟩

/-- Models `Graph::add_node`: appends and returns the fresh index. -/
def CollectionExecutionGraph.add_node (g : CollectionExecutionGraph)
    (t : CollectionTask) : CollectionExecutionGraph × Nat :=
  (⟨g.nodes ++ [t], g.edges⟩, g.nodes.length)

/-- Models `Graph::add_edge`: appends the edge. -/
def CollectionExecutionGraph.add_edge (g : CollectionExecutionGraph)
    (a b : Nat) (w : CollectionGraphEdge) : CollectionExecutionGraph :=
  ⟨g.nodes, g.edges ++ [⟨a, b, w⟩]⟩

abbrev TaskMap := List ((CollectorConfig × CommitHash) × Nat)

def TaskMap.get (m : TaskMap) (k : CollectorConfig × CommitHash) : Option Nat :=
  match m with
  | [] => none
  | e :: rest => if e.1 = k then some e.2 else TaskMap.get rest k

def TaskMap.insert (m : TaskMap) (k : CollectorConfig × CommitHash) (v : Nat) :
    TaskMap :=
  (k, v) :: m

/-- Depth of the dependency recursion of `add_task` below a given collector
configuration; every recursive call in the source strictly decreases it, and
it is at most 2 (`TotalPatternOccurences → PatternOccurences → ChangedFiles`). -/
def depConfigDepth : CollectorConfig → Nat
  | .totalPatternOccurences _ => 2
  | .patternOccurences _ => 1
  | .totalCargoDeps => 1
  | .totalLoc => 1
  | .totalFileCount => 1
  | .changedFilesLoc => 1
  | _ => 0

/-- Models `add_task` (graph.rs lines 30-156).  The extra `fuel` argument makes the
recursion structural so that concrete graphs evaluate inside the kernel;
every call site passes `fuel = 3 > depConfigDepth cfg`, and the recursion of
the source strictly decreases `depConfigDepth`, so the out-of-fuel branch is
unreachable (it returns the state unchanged with index 0).  Within each
match arm the dependency task is created first and its distance-0 edge added,
then the temporal edge, exactly as in the source. -/
def add_task_core (fuel : Nat) (graph : CollectionExecutionGraph)
    (created_tasks : TaskMap) (collector_config : CollectorConfig)
    (current_commit_hash : CommitHash)
    (previous_commit_hash : Option CommitHash)
    (previous_commit_distance : Nat) :
    CollectionExecutionGraph × TaskMap × Nat :=
  match fuel with
  | 0 => (graph, created_tasks, 0)
  | fuel + 1 =>
    match created_tasks.get (collector_config, current_commit_hash) with
    | some node_idx => (graph, created_tasks, node_idx)
    | none =>
      let (graph, node_idx) :=
        graph.add_node ⟨current_commit_hash, collector_config⟩
      let created_tasks :=
        created_tasks.insert (collector_config, current_commit_hash) node_idx
      -- Create dependency tasks
      let (graph, created_tasks) :=
        match collector_config with
        | .totalPatternOccurences pattern =>
          let (graph, created_tasks, dependency_node_idx) :=
            add_task_core fuel graph created_tasks
              (.patternOccurences pattern) current_commit_hash
              previous_commit_hash previous_commit_distance
          (graph.add_edge dependency_node_idx node_idx ⟨0⟩, created_tasks)
        | .patternOccurences _ | .totalCargoDeps =>
          let (graph, created_tasks, dependency_node_idx) :=
            add_task_core fuel graph created_tasks
              .changedFiles current_commit_hash
              previous_commit_hash previous_commit_distance
          (graph.add_edge dependency_node_idx node_idx ⟨0⟩, created_tasks)
        | .totalLoc =>
          let (graph, created_tasks, dependency_node_idx) :=
            add_task_core fuel graph created_tasks
              .loc current_commit_hash
              previous_commit_hash previous_commit_distance
          (graph.add_edge dependency_node_idx node_idx ⟨0⟩, created_tasks)
        | .totalFileCount =>
          let (graph, created_tasks, dependency_node_idx) :=
            add_task_core fuel graph created_tasks
              .fileList current_commit_hash
              previous_commit_hash previous_commit_distance
          (graph.add_edge dependency_node_idx node_idx ⟨0⟩, created_tasks)
        | .changedFilesLoc =>
          let (graph, created_tasks, dependency_node_idx) :=
            add_task_core fuel graph created_tasks
              .changedFiles current_commit_hash
              previous_commit_hash previous_commit_distance
          (graph.add_edge dependency_node_idx node_idx ⟨0⟩, created_tasks)
        | _ => (graph, created_tasks)
      let graph :=
        match previous_commit_hash with
        | some previous_commit_hash =>
          match created_tasks.get (collector_config, previous_commit_hash) with
          | some last_commit_task_idx =>
            graph.add_edge last_commit_task_idx node_idx
              ⟨previous_commit_distance⟩
          | none => graph
        | none => graph
      (graph, created_tasks, node_idx)

def add_task (graph : CollectionExecutionGraph) (created_tasks : TaskMap)
    (collector_config : CollectorConfig) (current_commit_hash : CommitHash)
    (previous_commit_hash : Option CommitHash)
    (previous_commit_distance : Nat) :
    CollectionExecutionGraph × TaskMap × Nat :=
  add_task_core 3 graph created_tasks collector_config current_commit_hash
    previous_commit_hash previous_commit_distance

/-- Stable insertion used to model `Vec::sort_by` (a stable sort): the new
element goes after every earlier element `y` with `le y x`.  For a total
preorder the stably-sorted permutation is unique, so this agrees with the
stable merge sort Rust uses. -/
def insertSorted (le : α → α → Bool) (x : α) : List α → List α
  | [] => [x]
  | y :: ys => if le y x then y :: insertSorted le x ys else x :: y :: ys

def stableSortBy (le : α → α → Bool) (l : List α) : List α :=
  l.foldl (fun acc x => insertSorted le x acc) []

/-- The commit sort of graph.rs lines 167-172: stable sort ascending by
time, unordered pairs treated as equal (the order of our model is total). -/
def sort_commits (commits : List CommitInfo) : List CommitInfo :=
  stableSortBy (fun a b => a.time.leb b.time) commits

/-- State of the per-metric loop in `build_collection_execution_graph`:
graph, memo table, running `distance`, and `previous_commit`. -/
structure BuildState where
  graph : CollectionExecutionGraph
  created_tasks : TaskMap
  distance : Nat
  previous_commit : Option CommitInfo

/-- The body of the commit loop (graph.rs lines 179-231) for one metric.
Note that the source increments `distance` on a skipped commit but never
resets it after `add_task`; the model reproduces this. -/
def build_step (force_latest_commit : Bool) (commit_count : Nat)
    (metric_config : MetricConfig) (st : BuildState)
    (ic : Nat × CommitInfo) : BuildState :=
  let (index, current_commit) := ic
  let current_commit_hash := current_commit.id
  let is_latest_commit := index == commit_count - 1
  let skipped :=
    if force_latest_commit && is_latest_commit then false
    else
      match st.previous_commit with
      | some previous_commit =>
        same_bucket previous_commit.time current_commit.time
          metric_config.frequency
      | none => false
  if skipped then
    { st with distance := st.distance + 1 }
  else
    let (graph, created_tasks, _) :=
      add_task st.graph st.created_tasks metric_config.collector
        current_commit_hash (st.previous_commit.map (·.id)) st.distance
    { graph := graph, created_tasks := created_tasks,
      distance := st.distance, previous_commit := some current_commit }

/-- Models `build_collection_execution_graph` (graph.rs lines 158-235).  Metrics are
given as a list standing for `metrics.values()` (HashMap iteration order is
arbitrary in the source). -/
def build_collection_execution_graph (metrics : List MetricConfig)
    (commits : List CommitInfo) (force_latest_commit : Bool) :
    CollectionExecutionGraph :=
  let sorted_commits := sort_commits commits
  let n := sorted_commits.length
  let result :=
    metrics.foldl
      (fun (acc : CollectionExecutionGraph × TaskMap) metric_config =>
        let final :=
          sorted_commits.enum.foldl
            (build_step force_latest_commit n metric_config)
            { graph := acc.1, created_tasks := acc.2, distance := 0,
              previous_commit := none }
        (final.graph, final.created_tasks))
      (.empty, [])
  result.1

/-! ### Collector values (`src/lib/src/collectors/*`)

`HashSet` payloads become `Finset`; `BTreeMap`/`HashMap` payloads, which no
modelled code path inspects, become association lists. -/

/-- Mirrors `PartialGrepText` (a grep-printer JSON text fragment). -/
structure GrepText where
  text : String
deriving DecidableEq

/-- Mirrors `PartialMatchDataSubmatch`. -/
structure GrepSubmatch where
  start : Nat
  «end» : Nat
  mtch : GrepText
deriving DecidableEq

/-- Mirrors `PartialMatchData`: one match record of `PatternOccurences`. -/
structure GrepMatchData where
  path : GrepText
  line_number : Nat
  absolute_offset : Nat
  submatches : List GrepSubmatch
deriving DecidableEq

structure ChangedFilesValue where
  files : Finset String
deriving DecidableEq

structure LocValue where
  loc_by_language : List (String × Nat)
deriving DecidableEq

structure PatternOccurencesValue where
  «matches» : Finset GrepMatchData
deriving DecidableEq

structure GritQLPatternOccurencesValue where
deriving DecidableEq

structure TotalCargoDependenciesValue where
  total_dependencies : Nat
deriving DecidableEq

structure TotalDiffStatValue where
  files_changed : Nat
  insertions : Nat
  deletions : Nat
deriving DecidableEq

structure TotalLocValue where
  loc : Nat
deriving DecidableEq

structure TotalPatternOccurencesValue where
  total_occurences : Nat
deriving DecidableEq

structure FileListValue where
  files : List String
deriving DecidableEq

structure TotalFileCountValue where
  total_file_count : Nat
deriving DecidableEq

structure ChangedFilesLocValue where
  files : List (String × Option Nat)
deriving DecidableEq

/-- Mirrors the `CollectorValue` sum of `src/lib/src/collectors/mod.rs`. -/
inductive CollectorValue where
  | changedFiles (v : ChangedFilesValue)
  | loc (v : LocValue)
  | patternOccurences (v : PatternOccurencesValue)
  | gritqlPatternOccurences (v : GritQLPatternOccurencesValue)
  | totalCargoDependencies (v : TotalCargoDependenciesValue)
  | totalDiffStat (v : TotalDiffStatValue)
  | totalLoc (v : TotalLocValue)
  | totalPatternOccurences (v : TotalPatternOccurencesValue)
  | fileList (v : FileListValue)
  | totalFileCount (v : TotalFileCountValue)
  | changedFilesLoc (v : ChangedFilesLocValue)
deriving DecidableEq

/-! ### The value store

`DashMap<(CollectorConfig, CommitHash), CollectorValue>` as an association
list: `insert` prepends and `get` returns the most recent binding, which
coincides with `DashMap::insert` overwrite semantics. -/

abbrev Storage := List ((CollectorConfig × CommitHash) × CollectorValue)

def storage_get (st : Storage) (k : CollectorConfig × CommitHash) :
    Option CollectorValue :=
  match st with
  | [] => none
  | e :: rest => if e.1 = k then some e.2 else storage_get rest k

def storage_contains (st : Storage) (k : CollectorConfig × CommitHash) : Bool :=
  (storage_get st k).isSome

def storage_insert (st : Storage) (k : CollectorConfig × CommitHash)
    (v : CollectorValue) : Storage :=
  (k, v) :: st

/-! ### Collector helpers (`src/lib/src/collectors/utils.rs`) -/

/-- Models `find_incoming_edges`: the edges into `current_node_idx` whose weight
satisfies the predicate.  The detached neighbor walker of petgraph yields incoming
edges most-recently-added first, hence the `reverse`. -/
def find_incoming_edges (g : CollectionExecutionGraph) (current_node_idx : Nat)
    (predicate : CollectionGraphEdge → Bool) : List PEdge :=
  g.edges.reverse.filter
    (fun e => e.target == current_node_idx && predicate e.weight)

/-- Models `find_preceding_node`: the source of the first incoming edge matching the
edge predicate whose source node matches the node predicate. -/
def find_preceding_node (g : CollectionExecutionGraph)
    (current_node_idx : Nat) (edge_predicate : CollectionGraphEdge → Bool)
    (node_predicate : CollectionTask → Bool) : Option Nat :=
  (find_incoming_edges g current_node_idx edge_predicate).findSome?
    (fun e =>
      match g.nodes[e.source]? with
      | none => none
      | some source_node =>
        if node_predicate source_node then some e.source else none)

/-- Models `get_previous_commit_value_of_collector` (utils.rs lines 63-85): looks for
an incoming edge with `distance == 1` from a node of the same collector and
returns the stored value of that node, if any.  The source indexes
`graph[current_node_idx]` directly (panicking on an invalid index, which
cannot occur in the evaluator); the model returns `none` for an out-of-range
index, which no theorem below relies on. -/
def get_previous_commit_value_of_collector (storage : Storage)
    (g : CollectionExecutionGraph) (current_node_idx : Nat) :
    Option CollectorValue := do
  let current_node ← g.nodes[current_node_idx]?
  let previous_node_index ← find_preceding_node g current_node_idx
    (fun e => e.distance == 1)
    (fun n => n.collector_config == current_node.collector_config)
  let previous_node ← g.nodes[previous_node_index]?
  storage_get storage
    (previous_node.collector_config, previous_node.commit_hash)

/-- Result of `get_value_of_preceeding_node`: the source either returns
`Ok(value)`, returns the typed `LookupError` carrying the task index, or calls the
`panic` macro (aborting the thread) when no preceding node matches. -/
inductive PreceedingNodeResult where
  | ok (v : CollectorValue)
  | lookupErr (task_idx : Nat)
  | panicked
deriving DecidableEq

/-- Models `get_value_of_preceeding_node` (utils.rs lines 93-115).  The
`unwrap_or_else` branch invokes the `panic` macro when `find_preceding_node`
returns `None`; the `ok_or` produces the typed `LookupError` when the found
value of the node is absent from the store.  The inner out-of-range graph index
(again impossible for evaluator-produced indices) is modelled as the same
abort. -/
def get_value_of_preceeding_node (storage : Storage)
    (g : CollectionExecutionGraph) (current_node_idx : Nat)
    (edge_predicate : CollectionGraphEdge → Bool)
    (node_predicate : CollectionTask → Bool) : PreceedingNodeResult :=
  match find_preceding_node g current_node_idx edge_predicate node_predicate with
  | none => .panicked
  | some task_idx =>
    match g.nodes[task_idx]? with
    | none => .panicked
    | some task =>
      match storage_get storage (task.collector_config, task.commit_hash) with
      | none => .lookupErr task_idx
      | some v => .ok v

/-! ### The evaluator loop (`src/lib/src/lib.rs` lines 394-453)

The cited region is the per-commit-group closure that
`CollectionProcess::execute_collection` maps over the grouped, topologically
sorted node indices, and the binding `let _: Vec<Result<()>> = ...` that
collects (and discards) the per-group results.  A collector invocation —
instantiating the collector from the config, acquiring and resetting a
worktree for a base collector, and calling `collect` — is abstracted as an
oracle `run : CollectionTask → Storage → Except String CollectorValue`,
since its outcome is what the surrounding control flow branches on.  Groups
are taken as an argument (the list of node lists the source computes just
above the cited region).  The non-`rayon` build iterates the groups
sequentially, which is what the model does. -/

/-- The body of one commit-group closure.  For each task in the group: if the
store already has the key and the cache is enabled, increment the reused
counter and `return Ok(())` — which in the source exits the whole closure,
not just the iteration of this task; otherwise invoke the collector, aborting the
group on error via `?`, and on success insert the result and increment the
new-value counter. -/
def process_group (run : CollectionTask → Storage → Except String CollectorValue)
    (disable_cache : Bool) :
    List CollectionTask → Storage → Nat → Nat →
    Storage × Nat × Nat × Except String Unit
  | [], st, reused, fresh => (st, reused, fresh, .ok ())
  | task :: rest, st, reused, fresh =>
    let key := (task.collector_config, task.commit_hash)
    let is_in_storage := storage_contains st key
    if is_in_storage && disable_cache == false then
      (st, reused + 1, fresh, .ok ())
    else
      match run task st with
      | .error e => (st, reused, fresh, .error e)
      | .ok output =>
        process_group run disable_cache rest (storage_insert st key output)
          reused (fresh + 1)

/-- Sequential iteration over the commit-groups, threading the shared store
and the two counters and collecting the per-group `Result<()>` values. -/
def run_groups (run : CollectionTask → Storage → Except String CollectorValue)
    (disable_cache : Bool) :
    List (List CollectionTask) → Storage → Nat → Nat →
    Storage × Nat × Nat × List (Except String Unit)
  | [], st, reused, fresh => (st, reused, fresh, [])
  | g :: gs, st, reused, fresh =>
    let (st', reused', fresh', res) := process_group run disable_cache g st reused fresh
    let (st2, reused2, fresh2, results) := run_groups run disable_cache gs st' reused' fresh'
    (st2, reused2, fresh2, res :: results)

/-- Models `execute_collection`, from the point where the grouped node indices
exist: the source binds the collected per-group results to `_`, discarding
them, and unconditionally proceeds to the `PostCollection` state, returning
`Ok(self)`.  The model returns the final store and the two counters. -/
def execute_collection (run : CollectionTask → Storage → Except String CollectorValue)
    (disable_cache : Bool) (groups : List (List CollectionTask))
    (storage : Storage) : Except String (Storage × Nat × Nat) :=
  let (st, reused, fresh, _results) := run_groups run disable_cache groups storage 0 0
  .ok (st, reused, fresh)

/-! ### `PatternOccurences::collect`, incremental branch
(`src/lib/src/collectors/pattern_occurences.rs` lines 134-207)

The glob set built from the `files` configuration of the collector is abstracted
as an optional Boolean matcher on the repository-relative path (the build
may also fail, in which case the source falls back to `None`); the
filesystem is abstracted by the two oracles `exists_file` (the
`changed_file_absolute_path.exists()` check) and `search_file` (the ripgrep
matches of the searcher for one file, already relative-pathed by
`sink_with_path`). -/

/-- The `matching_files_in_current_commit` computation: the glob filter
applied to the changed-file set, or the whole set when there is no glob. -/
def glob_filtered_changed (globset : Option (String → Bool))
    (changed_files_in_current_commit : Finset String) : Finset String :=
  match globset with
  | some globs => changed_files_in_current_commit.filter (fun f => globs f = true)
  | none => changed_files_in_current_commit

/-- The matches accumulated in the JSON sink by the rescan loop: the union
over the files it searches (skipping files absent from the worktree) of each
per-file matches. -/
def rescan_matches (exists_file : String → Bool)
    (search_file : String → Finset GrepMatchData)
    (files : Finset String) : Finset GrepMatchData :=
  files.biUnion (fun f => if exists_file f then search_file f else ∅)

/-- The incremental branch taken when a previous-commit value exists:
rescan the glob-filtered changed files, drop from the previous value every
match whose path is in the (unfiltered) changed set, and union. -/
def pattern_occurences_incremental
    (previous_commit_matches : Finset GrepMatchData)
    (changed_files_in_current_commit : Finset String)
    (globset : Option (String → Bool)) (exists_file : String → Bool)
    (search_file : String → Finset GrepMatchData) : Finset GrepMatchData :=
  let matching_files_in_current_commit :=
    glob_filtered_changed globset changed_files_in_current_commit
  let found_matches := rescan_matches exists_file search_file
    matching_files_in_current_commit
  let filtered_cached_matches := previous_commit_matches.filter
    (fun m => m.path.text ∉ changed_files_in_current_commit)
  filtered_cached_matches ∪ found_matches

/-! ### `PatternOccurences::collect`, full-walk branch (lines 209-249)

The worktree is a forest of named entries.  `WalkDir::filter_entry(p)`
yields an entry only if `p` holds of it and does not descend into
directories for which `p` fails; the search loop then skips entries that are
not files, strips the root prefix, and applies the optional glob to the
relative path.  `walk_file_paths` returns the relative paths (as component
lists) of the files the filtered walk yields. -/

inductive FsEntry where
  | file (name : String)
  | dir (name : String) (children : List FsEntry)

/-- Models `str::starts_with` (the built-in `String.startsWith` is not
kernel-reducible, so we compare the character lists). -/
def string_starts_with (s p : String) : Bool :=
  p.data.isPrefixOf s.data

/-- The `filter_entry` predicate of the source, which keeps an entry unless
its base name starts with `.git` — note that it tests every entry, files
included, not only directories. -/
def entry_not_dot_git (name : String) : Bool :=
  !(string_starts_with name ".git")

mutual

/-- Relative paths (component lists) of the files yielded below one entry by
a walk filtered by `p`. -/
def walk_entry_files (p : String → Bool) : FsEntry → List (List String)
  | .file n => if p n then [[n]] else []
  | .dir n children =>
    if p n then (walk_forest_files p children).map (fun q => n :: q) else []

/-- Walk of a list of sibling entries. -/
def walk_forest_files (p : String → Bool) : List FsEntry → List (List String)
  | [] => []
  | e :: es => walk_entry_files p e ++ walk_forest_files p es

end

mutual

/-- Relative paths of all files below one entry, with no filtering —
the reference against which the filtered walk is characterised. -/
def all_entry_files : FsEntry → List (List String)
  | .file n => [[n]]
  | .dir n children => (all_forest_files children).map (fun q => n :: q)

def all_forest_files : List FsEntry → List (List String)
  | [] => []
  | e :: es => all_entry_files e ++ all_forest_files es

end

def joinPath (ps : List String) : String :=
  String.intercalate "/" ps

/-- The files actually searched by the full-walk branch: the files the
`.git`-filtered walk yields, further restricted by the optional glob applied
to the relative path (worktree root taken as the walk root). -/
def full_walk_searched_files (worktree : List FsEntry)
    (globset : Option (String → Bool)) : List String :=
  (walk_forest_files entry_not_dot_git worktree).filterMap
    (fun ps =>
      let rel := joinPath ps
      match globset with
      | some globs => if globs rel then some rel else none
      | none => some rel)

/-! ### `WorktreeHandle::list_files` (`src/lib/src/git.rs` lines 435-448)
and the `FileList` collector (`src/lib/src/collectors/file_list.rs`)

The git tree of the checked-out commit is a forest of named entries, each a
blob (file) or a subtree (directory).  `tree.walk(PreOrder, ..)` invokes the
callback on every entry — subtree entries included — before descending, and
the callback pushes `entry.name()`, the base name of the entry, ignoring the root
prefix argument; `flatten` then drops only non-UTF-8 names (our names are
all valid strings). -/

inductive TreeEntry where
  | blob (name : String)
  | tree (name : String) (children : List TreeEntry)

mutual

/-- The names pushed by the pre-order callback below one entry (the name of
the entry itself first, then the names of its descendants). -/
def tree_walk_entry_names : TreeEntry → List String
  | .blob n => [n]
  | .tree n children => n :: tree_walk_forest_names children

def tree_walk_forest_names : List TreeEntry → List String
  | [] => []
  | e :: es => tree_walk_entry_names e ++ tree_walk_forest_names es

end

/-- Models `WorktreeHandle::list_files`: the pre-order walk of the HEAD tree,
collecting the base name of each visited entry. -/
def list_files (head_tree : List TreeEntry) : List String :=
  tree_walk_forest_names head_tree

/-- Models how `FileList::collect` wraps the `list_files` result in a `FileListValue`. -/
def file_list_collect (head_tree : List TreeEntry) : CollectorValue :=
  .fileList ⟨list_files head_tree⟩

mutual

/-- Modelled from the spec: "all tracked file paths" — the
repository-relative path of every blob reachable from the HEAD tree, with
its directory prefix and with no entries for directories themselves
(spec §4.2 collector table, row `FileList`). -/
def spec_tracked_entry_paths : TreeEntry → List String
  | .blob n => [n]
  | .tree n children =>
    (spec_tracked_forest_paths children).map (fun q => n ++ "/" ++ q)

def spec_tracked_forest_paths : List TreeEntry → List String
  | [] => []
  | e :: es => spec_tracked_entry_paths e ++ spec_tracked_forest_paths es

end

/-! ### Concrete inputs

The commit list of the Daily graph-builder scenario (spec §8, and the
`daily` tests in graph.rs). -/

def mkCommit (h : String) (y mo d hh mm : Nat) : CommitInfo :=
  { id := h, author := ⟨some "Dummy", some "dummy@test.com"⟩,
    committer := ⟨some "Dummy", some "dummy@test.com"⟩,
    message := none, time := ⟨y, mo, d, hh, mm, 0⟩ }

def commits11 : List CommitInfo :=
  [ mkCommit "1.0" 2012 12 12 0 0, mkCommit "1.1" 2012 12 12 1 0,
    mkCommit "1.2" 2012 12 12 2 0, mkCommit "1.3" 2012 12 12 3 0,
    mkCommit "2" 2012 12 13 0 0, mkCommit "3.0" 2012 12 14 0 0,
    mkCommit "3.1" 2012 12 14 1 0, mkCommit "3.2" 2012 12 14 18 0,
    mkCommit "4" 2012 12 15 0 0, mkCommit "5.0" 2012 12 16 0 0,
    mkCommit "5.1" 2012 12 16 1 0 ]

/-- The graph the builder produces for a single Daily `Loc` metric over the
eleven commits, without force-latest. -/
def dailyLocGraph : CollectionExecutionGraph :=
  build_collection_execution_graph [⟨.loc, .daily⟩] commits11 false

/-! ### Claim theorems -/

/-- C6: for the eleven listed commits and a Daily `Loc` metric the graph
contains nodes for exactly the commits 1.0, 2, 3.0, 4, 5.0 when
force-latest is off, and additionally 5.1 when it is on.  (Node lists are
in insertion order, one node per selected commit.) -/
theorem C6_daily_graph_nodes :
    (build_collection_execution_graph [⟨.loc, .daily⟩] commits11
        false).nodes.map (·.commit_hash) = ["1.0", "2", "3.0", "4", "5.0"] ∧
    (build_collection_execution_graph [⟨.loc, .daily⟩] commits11
        true).nodes.map (·.commit_hash) =
      ["1.0", "2", "3.0", "4", "5.0", "5.1"] := by
  constructor <;> decide

/-- C1: evaluation of the builder on the Daily scenario.  The temporal edge
from the node of commit 2 (index 1) to the node of commit 3.0 (index 2)
carries distance 3 although zero commits lie strictly between those two
commits, and the edge from 3.0 to 4 carries distance 5 although exactly two
commits (3.1, 3.2) were skipped between them: the `distance` counter is
never reset to 0 after `add_task`, so distances accumulate over the whole
iteration instead of counting the commits skipped since the previous
selected commit. -/
theorem C1_temporal_distance_not_reset :
    dailyLocGraph.nodes.map (·.commit_hash) = ["1.0", "2", "3.0", "4", "5.0"] ∧
    dailyLocGraph.edges =
      [⟨0, 1, ⟨3⟩⟩, ⟨1, 2, ⟨3⟩⟩, ⟨2, 3, ⟨5⟩⟩, ⟨3, 4, ⟨5⟩⟩] ∧
    commits11.countP
      (fun c =>
        (DateTime.ltb ⟨2012, 12, 13, 0, 0, 0⟩ c.time) &&
        (c.time.ltb ⟨2012, 12, 14, 0, 0, 0⟩)) = 0 ∧
    commits11.countP
      (fun c =>
        (DateTime.ltb ⟨2012, 12, 14, 0, 0, 0⟩ c.time) &&
        (c.time.ltb ⟨2012, 12, 15, 0, 0, 0⟩)) = 2 := by
  refine ⟨by decide, by decide, by decide, by decide⟩

/-- Helper: `decide` of an equality is symmetric in its sides. -/
theorem decide_eq_symm {α : Type _} [DecidableEq α] (x y : α) :
    decide (x = y) = decide (y = x) := by
  rw [decide_eq_decide]
  exact eq_comm

theorem is_same_year_comm (a b : DateTime) :
    is_same_year a b = is_same_year b a := by
  unfold is_same_year
  rw [decide_eq_symm]

theorem is_same_month_comm (a b : DateTime) :
    is_same_month a b = is_same_month b a := by
  unfold is_same_month
  rw [is_same_year_comm, decide_eq_symm]

theorem is_same_week_comm (a b : DateTime) :
    is_same_week a b = is_same_week b a := by
  unfold is_same_week
  rw [is_same_month_comm, decide_eq_symm]

theorem is_same_day_comm (a b : DateTime) :
    is_same_day a b = is_same_day b a := by
  unfold is_same_day
  rw [is_same_week_comm, decide_eq_symm]

theorem is_same_hour_comm (a b : DateTime) :
    is_same_hour a b = is_same_hour b a := by
  unfold is_same_hour
  rw [is_same_day_comm, decide_eq_symm]

theorem is_same_hour_refl (a : DateTime) : is_same_hour a a = true := by
  simp [is_same_hour, is_same_day, is_same_week, is_same_month, is_same_year]

/-- C7 counterexample: the bucket predicate is not reflexive at `PerCommit`:
for the time of the first scenario commit (or any other time) it returns
`false` on identical arguments, refuting `sameBucket(a, a, f) = true` for
the frequency `f = PerCommit` the claim explicitly includes. -/
theorem C7_counterexample_per_commit_not_reflexive :
    same_bucket ⟨2012, 12, 12, 0, 0, 0⟩ ⟨2012, 12, 12, 0, 0, 0⟩
      Frequency.perCommit = false := rfl

/-- C7 amended: the bucket predicate is symmetric for every frequency and
reflexive for every frequency except `PerCommit`, on which it is constantly
`false`. -/
theorem C7_amended_symmetry_reflexivity :
    (∀ a b f, same_bucket a b f = same_bucket b a f) ∧
    (∀ a f, f ≠ Frequency.perCommit → same_bucket a a f = true) ∧
    (∀ a b, same_bucket a b Frequency.perCommit = false) := by
  refine ⟨fun a b f => ?_, fun a f hf => ?_, fun a b => rfl⟩
  · cases f <;>
      simp [same_bucket, is_same_year_comm, is_same_month_comm,
        is_same_week_comm, is_same_day_comm, is_same_hour_comm]
  · have h := is_same_hour_refl a
    cases f with
    | perCommit => exact absurd rfl hf
    | yearly =>
      simp only [is_same_hour, is_same_day, is_same_week, is_same_month,
        Bool.and_eq_true] at h
      exact h.1.1.1.1
    | monthly =>
      simp only [is_same_hour, is_same_day, is_same_week,
        Bool.and_eq_true] at h
      exact h.1.1.1
    | weekly =>
      simp only [is_same_hour, is_same_day, Bool.and_eq_true] at h
      exact h.1.1
    | daily =>
      simp only [is_same_hour, Bool.and_eq_true] at h
      exact h.1
    | hourly => exact h

/-- C7 witness: the amended theorem applied at the times of commits 1.0 and
1.1 of the scenario, for the Daily and Hourly frequencies. -/
theorem C7_witness :
    same_bucket ⟨2012, 12, 12, 0, 0, 0⟩ ⟨2012, 12, 12, 1, 0, 0⟩
        Frequency.daily =
      same_bucket ⟨2012, 12, 12, 1, 0, 0⟩ ⟨2012, 12, 12, 0, 0, 0⟩
        Frequency.daily ∧
    same_bucket ⟨2012, 12, 12, 0, 0, 0⟩ ⟨2012, 12, 12, 0, 0, 0⟩
        Frequency.hourly = true :=
  ⟨C7_amended_symmetry_reflexivity.1 _ _ _,
   C7_amended_symmetry_reflexivity.2.1 _ _ (by decide)⟩

def taskChangedFilesC1 : CollectionTask := ⟨"c1", .changedFiles⟩

def taskPatternC1 : CollectionTask := ⟨"c1", .patternOccurences "x"⟩

def changedFilesValC1 : CollectorValue := .changedFiles ⟨{"f1"}⟩

/-- An oracle collector that always fails with an I/O-style error. -/
def runAlwaysFails : CollectionTask → Storage → Except String CollectorValue :=
  fun _ _ => .error "io error"

/-- An oracle collector that always succeeds. -/
def runAlwaysSucceeds : CollectionTask → Storage → Except String CollectorValue :=
  fun _ _ => .ok (.patternOccurences ⟨∅⟩)

/-- C2 counterexample: with a single one-task group whose collector fails,
the group result is the error `io error`, yet `execute_collection` — which
discards the collected per-group results — returns success (with the store
unchanged) instead of returning the error to the caller. -/
theorem C2_counterexample_error_discarded :
    (run_groups runAlwaysFails false [[taskChangedFilesC1]] [] 0 0).2.2.2 =
      [.error "io error"] ∧
    execute_collection runAlwaysFails false [[taskChangedFilesC1]] [] =
      .ok ([], 0, 0) :=
  ⟨rfl, rfl⟩

/-- C2 amended: a failing collector invocation aborts its commit-group with
that error as the group result and without mutating the store or the
counters, but `execute_collection` discards the per-group results and
always returns success to the caller. -/
theorem C2_amended_group_abort_and_ok_result
    (run : CollectionTask → Storage → Except String CollectorValue)
    (disable_cache : Bool) :
    (∀ task rest st reused fresh e,
      (storage_contains st (task.collector_config, task.commit_hash) &&
        disable_cache == false) = false →
      run task st = .error e →
      process_group run disable_cache (task :: rest) st reused fresh =
        (st, reused, fresh, .error e)) ∧
    (∀ groups st, ∃ out,
      execute_collection run disable_cache groups st = .ok out) := by
  constructor
  · intro task rest st reused fresh e hskip herr
    simp only [process_group]
    rw [hskip]
    simp [herr]
  · intro groups st
    rcases hrg : run_groups run disable_cache groups st 0 0 with ⟨a, b, c, d⟩
    exact ⟨(a, b, c), by simp [execute_collection, hrg]⟩

/-- C2 witness: the amended theorem applied to the failing one-task group on
the empty store. -/
theorem C2_witness :
    process_group runAlwaysFails false [taskChangedFilesC1] [] 0 0 =
      ([], 0, 0, .error "io error") :=
  (C2_amended_group_abort_and_ok_result runAlwaysFails false).1
    taskChangedFilesC1 [] [] 0 0 "io error" rfl rfl

/-- C3: with the cache enabled and a commit-group whose first node is
already in the store, the whole run completes without error but the group is
abandoned at the cache hit: the second node of the group is never executed
(the new-value counter stays 0) and the final store has no entry for it,
even though its collector would have succeeded — because the reuse branch
returns from the whole group closure instead of continuing with the next
node. -/
theorem C3_reuse_aborts_group :
    execute_collection runAlwaysSucceeds false
        [[taskChangedFilesC1, taskPatternC1]]
        [((CollectorConfig.changedFiles, "c1"), changedFilesValC1)] =
      .ok ([((CollectorConfig.changedFiles, "c1"), changedFilesValC1)], 1, 0) ∧
    storage_contains [((CollectorConfig.changedFiles, "c1"), changedFilesValC1)]
        (taskPatternC1.collector_config, taskPatternC1.commit_hash) = false ∧
    runAlwaysSucceeds taskPatternC1
        [((CollectorConfig.changedFiles, "c1"), changedFilesValC1)] =
      .ok (.patternOccurences ⟨∅⟩) :=
  ⟨rfl, rfl, rfl⟩

/-- C4 counterexample: in the graph the builder produces for the Daily
scenario, node 2 (collector `Loc` at commit 3.0) has a temporal predecessor:
node 1 (`Loc` at the previous selected commit 2), joined by a temporal edge
of distance 3 ≥ 1.  With the value of that predecessor in the store,
`get_previous_commit_value_of_collector` still returns `none`, because it
only ever follows edges of distance exactly 1. -/
theorem C4_counterexample_distance_not_one :
    dailyLocGraph.nodes[1]? = some ⟨"2", .loc⟩ ∧
    dailyLocGraph.nodes[2]? = some ⟨"3.0", .loc⟩ ∧
    (⟨1, 2, ⟨3⟩⟩ : PEdge) ∈ dailyLocGraph.edges ∧
    storage_get [((CollectorConfig.loc, "2"), .loc ⟨[("Rust", 10)]⟩)]
        (CollectorConfig.loc, "2") = some (.loc ⟨[("Rust", 10)]⟩) ∧
    get_previous_commit_value_of_collector
        [((CollectorConfig.loc, "2"), .loc ⟨[("Rust", 10)]⟩)]
        dailyLocGraph 2 = none := by
  refine ⟨by decide, by decide, by decide, by decide, by decide⟩

/-- C4 amended: `get_previous_commit_value_of_collector` returns a value
precisely when the first incoming edge of distance exactly 1 from a node of
the same collector exists and the store holds a value for that node; any
other temporal predecessor (distance 0 or ≥ 2) yields `none` even when its
value is present. -/
theorem C4_amended_distance_one_characterisation (storage : Storage)
    (g : CollectionExecutionGraph) (idx : Nat) (v : CollectorValue) :
    get_previous_commit_value_of_collector storage g idx = some v ↔
    ∃ current prev_idx prev_task,
      g.nodes[idx]? = some current ∧
      find_preceding_node g idx (fun e => e.distance == 1)
        (fun n => n.collector_config == current.collector_config) =
        some prev_idx ∧
      g.nodes[prev_idx]? = some prev_task ∧
      storage_get storage
        (prev_task.collector_config, prev_task.commit_hash) = some v := by
  simp [get_previous_commit_value_of_collector, Option.bind_eq_some]

/-- C4 witness: the amended characterisation applied to a two-node graph
whose temporal edge has distance exactly 1 and whose predecessor value is in
the store. -/
theorem C4_witness :
    get_previous_commit_value_of_collector
        [((CollectorConfig.loc, "a"), .loc ⟨[]⟩)]
        ⟨[⟨"a", .loc⟩, ⟨"b", .loc⟩], [⟨0, 1, ⟨1⟩⟩]⟩ 1 = some (.loc ⟨[]⟩) :=
  (C4_amended_distance_one_characterisation _ _ _ _).mpr
    ⟨⟨"b", .loc⟩, 0, ⟨"a", .loc⟩, rfl, rfl, rfl, rfl⟩

/-- C8 counterexample: on a graph whose single node has no incoming edge at
all, `get_value_of_preceeding_node` — for any predicates, here the constantly
true ones — does not return the typed lookup error the claim requires: it
takes the `panic` branch, aborting the process. -/
theorem C8_counterexample_no_match_aborts :
    get_value_of_preceeding_node [] ⟨[⟨"a", .loc⟩], []⟩ 0
      (fun _ => true) (fun _ => true) = .panicked := rfl

/-- C8 amended: `get_value_of_preceeding_node` returns the value of the
first preceding node matching both predicates; it returns the typed
`LookupError` (carrying that node index) when the matching node exists but
its value is absent from the store; and when no incoming source node matches
the predicates it panics — terminating the worker — instead of returning an
error. -/
theorem C8_amended_lookup_cases (storage : Storage)
    (g : CollectionExecutionGraph) (idx : Nat)
    (ep : CollectionGraphEdge → Bool) (np : CollectionTask → Bool) :
    (find_preceding_node g idx ep np = none →
      get_value_of_preceeding_node storage g idx ep np = .panicked) ∧
    (∀ t task, find_preceding_node g idx ep np = some t →
      g.nodes[t]? = some task →
      (storage_get storage (task.collector_config, task.commit_hash) = none →
        get_value_of_preceeding_node storage g idx ep np = .lookupErr t) ∧
      (∀ v,
        storage_get storage (task.collector_config, task.commit_hash) = some v →
        get_value_of_preceeding_node storage g idx ep np = .ok v)) := by
  refine ⟨fun h => ?_, fun t task hfind hnode => ⟨fun habs => ?_, fun v hv => ?_⟩⟩
  · simp [get_value_of_preceeding_node, h]
  · simp [get_value_of_preceeding_node, hfind, hnode, habs]
  · simp [get_value_of_preceeding_node, hfind, hnode, hv]

def graphW8 : CollectionExecutionGraph :=
  ⟨[⟨"a", .changedFiles⟩, ⟨"b", .patternOccurences "x"⟩], [⟨0, 1, ⟨0⟩⟩]⟩

def edgePredW8 : CollectionGraphEdge → Bool := fun e => e.distance == 0

def nodePredW8 : CollectionTask → Bool :=
  fun n => n.collector_config == CollectorConfig.changedFiles

/-- C8 witness: the amended theorem applied to a two-node graph with a
distance-0 dependency edge whose source value is absent from the (empty)
store, yielding the typed lookup error. -/
theorem C8_witness :
    get_value_of_preceeding_node [] graphW8 1 edgePredW8 nodePredW8 =
      .lookupErr 0 :=
  ((C8_amended_lookup_cases [] graphW8 1 edgePredW8 nodePredW8).2 0
    ⟨"a", .changedFiles⟩ rfl rfl).1 rfl

def matchA : GrepMatchData := ⟨⟨"f1"⟩, 1, 10, [⟨0, 1, ⟨"A"⟩⟩]⟩

def matchB : GrepMatchData := ⟨⟨"f2"⟩, 2, 20, [⟨0, 1, ⟨"B"⟩⟩]⟩

def matchC : GrepMatchData := ⟨⟨"f3"⟩, 3, 30, [⟨0, 1, ⟨"C"⟩⟩]⟩

/-- C5: the incremental branch produces exactly the previous match set minus
every record whose path is in the unfiltered changed set, unioned with the
fresh matches of rescanning the glob-filtered subset of the changed files —
in general, and on the literal example of the spec (predecessor matches
A at f1, B at f2, C at f3; changed set f1, f4; no glob). -/
theorem C5_incremental_reconciliation :
    (∀ (prev : Finset GrepMatchData) (changed : Finset String)
        (globset : Option (String → Bool)) (exists_file : String → Bool)
        (search_file : String → Finset GrepMatchData),
      pattern_occurences_incremental prev changed globset exists_file
          search_file =
        prev.filter (fun m => m.path.text ∉ changed) ∪
          rescan_matches exists_file search_file
            (glob_filtered_changed globset changed)) ∧
    (∀ (exists_file : String → Bool)
        (search_file : String → Finset GrepMatchData),
      pattern_occurences_incremental {matchA, matchB, matchC} {"f1", "f4"}
          none exists_file search_file =
        {matchB, matchC} ∪
          rescan_matches exists_file search_file {"f1", "f4"}) := by
  constructor
  · intro prev changed globset exists_file search_file
    rfl
  · intro exists_file search_file
    show ({matchA, matchB, matchC} : Finset GrepMatchData).filter
        (fun m => m.path.text ∉ ({"f1", "f4"} : Finset String)) ∪
        rescan_matches exists_file search_file {"f1", "f4"} =
      {matchB, matchC} ∪ rescan_matches exists_file search_file {"f1", "f4"}
    exact congrArg
      (· ∪ rescan_matches exists_file search_file {"f1", "f4"}) (by decide)

/-- Helper: filtering the paths of a forest pushed below a directory named
`n` keeps them all (with `n` in front) when `p n` holds and drops them all
otherwise. -/
theorem filter_all_cons (p : String → Bool) (n : String)
    (l : List (List String)) :
    (l.map (fun q => n :: q)).filter (fun ps => ps.all p) =
      if p n then (l.filter (fun ps => ps.all p)).map (fun q => n :: q)
      else [] := by
  rw [List.filter_map]
  cases hp : p n <;>
    simp [Function.comp_def, List.all_cons, hp]

mutual

/-- Helper: the filtered walk below one entry yields exactly the file paths
all of whose components satisfy the predicate. -/
theorem walk_entry_files_eq (p : String → Bool) :
    ∀ e : FsEntry,
      walk_entry_files p e = (all_entry_files e).filter (fun ps => ps.all p)
  | .file n => by
    cases hp : p n <;>
      simp [walk_entry_files, all_entry_files, List.filter_cons,
        List.all_cons, hp]
  | .dir n children => by
    rw [show walk_entry_files p (.dir n children) =
        (if p n then (walk_forest_files p children).map (fun q => n :: q)
         else []) from by simp [walk_entry_files],
      show all_entry_files (.dir n children) =
        (all_forest_files children).map (fun q => n :: q) from by
          simp [all_entry_files],
      filter_all_cons, walk_forest_files_eq p children]

/-- Helper: as above, for a forest of sibling entries. -/
theorem walk_forest_files_eq (p : String → Bool) :
    ∀ es : List FsEntry,
      walk_forest_files p es =
        (all_forest_files es).filter (fun ps => ps.all p)
  | [] => by simp [walk_forest_files, all_forest_files]
  | e :: es => by
    rw [show walk_forest_files p (e :: es) =
        walk_entry_files p e ++ walk_forest_files p es from by
          simp [walk_forest_files],
      show all_forest_files (e :: es) =
        all_entry_files e ++ all_forest_files es from by
          simp [all_forest_files],
      List.filter_append, walk_entry_files_eq p e, walk_forest_files_eq p es]

end

/-- C9 counterexample: a worktree containing a regular file named
`.gitignore` and a regular file `a.txt`.  The full walk searches only
`a.txt`: the filter excludes the `.gitignore` file as well, contradicting
the claim that only directories beginning with `.git` are excluded and that
such files are still searched. -/
theorem C9_counterexample_gitignore_excluded :
    full_walk_searched_files [.file ".gitignore", .file "a.txt"] none =
      ["a.txt"] ∧
    ".gitignore" ∉
      full_walk_searched_files [.file ".gitignore", .file "a.txt"] none := by
  have h : full_walk_searched_files [.file ".gitignore", .file "a.txt"] none =
      ["a.txt"] := by
    simp [full_walk_searched_files, walk_forest_files, walk_entry_files,
      entry_not_dot_git, string_starts_with, joinPath]
    decide
  exact ⟨h, by rw [h]; decide⟩

/-- C9 amended: in the full walk, every entry — directory or regular file —
whose base name begins with `.git` is excluded (together with the
descendants of such directories); the searched files are exactly the files
all of whose path components pass that test, subject only to the optional
glob filter on the relative path. -/
theorem C9_amended_walk_filter :
    ∀ (worktree : List FsEntry) (globset : Option (String → Bool)),
      full_walk_searched_files worktree globset =
        ((all_forest_files worktree).filter
          (fun ps => ps.all entry_not_dot_git)).filterMap
          (fun ps =>
            let rel := joinPath ps
            match globset with
            | some globs => if globs rel then some rel else none
            | none => some rel) := by
  intro worktree globset
  simp only [full_walk_searched_files, walk_forest_files_eq]

def headTreeC10 : List TreeEntry :=
  [.blob "README.md", .tree "src" [.blob "main.rs"]]

/-- C10: evaluation of `list_files` on a HEAD tree with a top-level file
`README.md` and a file `main.rs` inside a directory `src`.  The walk pushes
the base name of every visited entry: the output contains the directory
entry `src` and the bare name `main.rs` instead of the tracked file path
`src/main.rs` the spec describes (computed alongside for comparison). -/
theorem C10_list_files_returns_entry_names :
    list_files headTreeC10 = ["README.md", "src", "main.rs"] ∧
    spec_tracked_forest_paths headTreeC10 = ["README.md", "src/main.rs"] ∧
    file_list_collect headTreeC10 =
      .fileList ⟨["README.md", "src", "main.rs"]⟩ := by
  refine ⟨?_, ?_, ?_⟩
  · simp [list_files, tree_walk_forest_names, tree_walk_entry_names]
  · simp [spec_tracked_forest_paths, spec_tracked_entry_paths]
  · simp [file_list_collect, list_files, tree_walk_forest_names,
      tree_walk_entry_names]

end Myaku
